import Mathlib

/-!
Verification of the compute-dynbackends request-admission pipeline.

The repository implements the same Fastly Compute proxy twice, in
JavaScript (`js/src/index.js`) and Go (`go/main.go`).  This file embeds
the pure request-admission logic of both implementations:

* `jsIsPrivateHost` / `goIsPrivateHost` — the two SSRF host classifiers,
  translated statement by statement from the two sources;
* `backendName` / `backendTarget` — the upstream identity derivation;
* `outboundHeaders` — the header sanitisation sequence of the JS handler;
* `parseURL` — a model of the runtime URL parser (an external collaborator
  of the repository, modelled from the spec);
* `admission` / `handleRequest` — the JS admission controller, with the
  outbound TLS fetch abstracted as an oracle argument.

Strings are handled through their underlying character lists so that all
definitions are executable and amenable to induction.  Lowercasing is
modelled on the ASCII range, where JS's `toLowerCase` (Unicode full case
conversion) and Go's `strings.ToLower` (Unicode simple case mapping)
coincide; outside ASCII the two runtimes lowercase differently (e.g.
U+0130 maps to two code points in JS and to one in Go), so the
cross-implementation comparison of the classifiers is stated for ASCII
hostnames only.
-/

/-- ASCII lowercasing of one character.  On ASCII input this is exactly
both JS `toLowerCase` and Go `strings.ToLower`; on non-ASCII input the
two runtimes differ from each other (full case conversion versus simple
case mapping), and neither is modelled here — every statement comparing
the two classifiers therefore carries an ASCII-only hypothesis. -/
def lowerChar (c : Char) : Char :=
  if 65 ≤ c.toNat ∧ c.toNat ≤ 90 then Char.ofNat (c.toNat + 32) else c

/-- ASCII character test, delimiting the domain on which `lowerChar`
faithfully models both runtimes' lowercasing. -/
def isAsciiChar (c : Char) : Bool :=
  decide (c.toNat ≤ 127)

/-- ASCII decimal digit test (`\d` in the JS regex, `'0' ≤ ch ≤ '9'` in
Go's `strconv.Atoi`). -/
def isDigitChar (c : Char) : Bool :=
  decide (48 ≤ c.toNat) && decide (c.toNat ≤ 57)

/-- Decimal value of a digit run, as produced by JS `Number` on a digit
string and by Go's `strconv.Atoi` accumulation. -/
def decVal (cs : List Char) : Nat :=
  cs.foldl (fun n c => n * 10 + (c.toNat - 48)) 0

/-- Splitting a character list on `'.'`, keeping empty segments — the
semantics shared by the JS regex group structure and Go's
`strings.Split(hostname, ".")`. -/
def splitOnDot : List Char → List (List Char)
  | [] => [[]]
  | c :: rest =>
    if c = '.' then [] :: splitOnDot rest
    else
      match splitOnDot rest with
      | [] => [[c]]
      | p :: ps => (c :: p) :: ps

/-- Inverse of `splitOnDot`: re-joins the segments with `'.'`. -/
def joinDots : List (List Char) → List Char
  | [] => []
  | [p] => p
  | p :: ps => p ++ '.' :: joinDots ps

/-- One group of the JS dotted-quad regex `(\d{1,3})`. -/
def digits13 (p : List Char) : Bool :=
  decide (1 ≤ p.length) && decide (p.length ≤ 3) && p.all isDigitChar

/-- The sequential octet checks of the JS classifier
(`js/src/index.js:23-46`), in source order: octet validation first, then
loopback, the private ranges, link-local, broadcast and current-network. -/
def quadChecksJS (a b c d : Nat) : Bool :=
  if a > 255 ∨ b > 255 ∨ c > 255 ∨ d > 255 then true
  else if a = 127 then true
  else if a = 10 then true
  else if a = 172 ∧ 16 ≤ b ∧ b ≤ 31 then true
  else if a = 192 ∧ b = 168 then true
  else if a = 169 ∧ b = 254 then true
  else if a = 255 ∧ b = 255 ∧ c = 255 ∧ d = 255 then true
  else if a = 0 then true
  else false

/-- The sequential octet checks of the Go classifier (`go/main.go:46-77`):
same ranges as JS but no broadcast rule, and only reached when every
octet already parsed into [0,255]. -/
def quadChecksGo (a b : Nat) : Bool :=
  if a = 127 then true
  else if a = 10 then true
  else if a = 172 ∧ 16 ≤ b ∧ b ≤ 31 then true
  else if a = 192 ∧ b = 168 then true
  else if a = 169 ∧ b = 254 then true
  else if a = 0 then true
  else false

/-- The JS dotted-quad block: the regex
`^(\d{1,3})\.(\d{1,3})\.(\d{1,3})\.(\d{1,3})$` matches exactly the strings
whose dot-split has four segments of one to three digits; on a match the
octet checks run on the decimal group values. -/
def jsQuadBool (cs : List Char) : Bool :=
  match splitOnDot cs with
  | [p1, p2, p3, p4] =>
    if digits13 p1 && digits13 p2 && digits13 p3 && digits13 p4 then
      quadChecksJS (decVal p1) (decVal p2) (decVal p3) (decVal p4)
    else false
  | _ => false

/-- Go's `strconv.Atoi`: an optional sign followed by at least one digit.
Overflow of the machine int is not modelled: any overflowing group also
fails the surrounding 0..255 range test, so the classifier outcome is
unaffected. -/
def goAtoi (cs : List Char) : Option Int :=
  match cs with
  | [] => none
  | c :: rest =>
    if c = '+' then
      if rest ≠ [] ∧ rest.all isDigitChar then some ((decVal rest : Nat) : Int) else none
    else if c = '-' then
      if rest ≠ [] ∧ rest.all isDigitChar then some (-((decVal rest : Nat) : Int)) else none
    else if (c :: rest).all isDigitChar then some ((decVal (c :: rest) : Nat) : Int)
    else none

/-- One Go octet: `strconv.Atoi` plus the `n < 0 || n > 255` range test
(`go/main.go:37-38`). -/
def goOctet (p : List Char) : Option Nat :=
  match goAtoi p with
  | none => none
  | some n => if 0 ≤ n ∧ n ≤ 255 then some n.toNat else none

/-- The Go dotted-quad block (`go/main.go:32-78`): four dot-separated
segments, all parsing into [0,255] (otherwise `valid = false` and the
block is skipped entirely), then the first-octet rules. -/
def goQuadBool (cs : List Char) : Bool :=
  match splitOnDot cs with
  | [p1, p2, p3, p4] =>
    match goOctet p1, goOctet p2, goOctet p3, goOctet p4 with
    | some a, some b, some _, some _ => quadChecksGo a b
    | _, _, _, _ => false
  | _ => false

/-- The textual prefix heuristics shared by both classifiers. -/
def internalPrefixes : List String :=
  ["internal.", "intranet.", "private.", "corp.", "lan."]

/-- The textual suffix heuristics shared by both classifiers. -/
def internalSuffixes : List String :=
  [".internal", ".local", ".localhost"]

/-- The prefix/suffix checks both implementations run on the lowercased
hostname (`js/src/index.js:55-68`, `go/main.go:81-93`). -/
def internalNamesBool (low : List Char) : Bool :=
  internalPrefixes.any (fun p => p.data.isPrefixOf low) ||
    internalSuffixes.any (fun s => s.data.isSuffixOf low)

/-- The JS classifier `isPrivateHost` (`js/src/index.js:7-71`), in source
order: localhost literals, dotted-quad block, IPv6 loopback literals,
textual heuristics. -/
def jsIsPrivateHostL (cs : List Char) : Bool :=
  if cs.map lowerChar = "localhost".data ∨ cs.map lowerChar = "localhost.localdomain".data then
    true
  else if jsQuadBool cs then true
  else if cs.map lowerChar = "::1".data ∨ cs.map lowerChar = "[::1]".data then true
  else internalNamesBool (cs.map lowerChar)

/-- The Go classifier `isPrivateHost` (`go/main.go:18-96`), in source
order: localhost literals, IPv6 loopback literals, dotted-quad block,
textual heuristics. -/
def goIsPrivateHostL (cs : List Char) : Bool :=
  if cs.map lowerChar = "localhost".data ∨ cs.map lowerChar = "localhost.localdomain".data then
    true
  else if cs.map lowerChar = "::1".data ∨ cs.map lowerChar = "[::1]".data then true
  else if goQuadBool cs then true
  else internalNamesBool (cs.map lowerChar)

/-- String-level entry point of the JS classifier. -/
def jsIsPrivateHost (hostname : String) : Bool :=
  jsIsPrivateHostL hostname.data

/-- String-level entry point of the Go classifier. -/
def goIsPrivateHost (hostname : String) : Bool :=
  goIsPrivateHostL hostname.data

/-- The character class `[a-zA-Z0-9]` of the backend-name sanitisation
regex (`js/src/index.js:168`, `go/main.go:160`). -/
def isBackendNameChar (c : Char) : Bool :=
  (decide (65 ≤ c.toNat) && decide (c.toNat ≤ 90)) ||
    (decide (97 ≤ c.toNat) && decide (c.toNat ≤ 122)) ||
    (decide (48 ≤ c.toNat) && decide (c.toNat ≤ 57))

/-- Sanitisation `hostname.replace(/[^a-zA-Z0-9]/g, "_")`: every character outside the
class is replaced by an underscore. -/
def sanitizeHost (hostname : String) : String :=
  String.mk (hostname.data.map fun c => if isBackendNameChar c then c else '_')

/-- The dynamic-backend name token
(`js/src/index.js:168`, `go/main.go:162`). -/
def backendName (hostname : String) (port : Nat) : String :=
  "dyn_" ++ sanitizeHost hostname ++ "_" ++ Nat.repr port

/-- The dynamic-backend connection target
(`js/src/index.js:174`, `go/main.go:177`). -/
def backendTarget (hostname : String) (port : Nat) : String :=
  hostname ++ ":" ++ Nat.repr port

/-- ASCII lowercasing of a whole string (header names, hostnames). -/
def lowerS (s : String) : String :=
  String.mk (s.data.map lowerChar)

/-- Semantics of `Headers.set(name, value)`: drop every pair whose name matches
case-insensitively, then append the new pair. -/
def headerSet (hs : List (String × String)) (name value : String) : List (String × String) :=
  (hs.filter fun p => lowerS p.1 != lowerS name) ++ [(name, value)]

/-- Semantics of `Headers.delete(name)`: drop every pair whose name matches
case-insensitively. -/
def headerDelete (hs : List (String × String)) (name : String) : List (String × String) :=
  hs.filter fun p => lowerS p.1 != lowerS name

/-- The header pipeline of the JS handler (`js/src/index.js:190-202`):
copy the inbound headers, force `Host` to the resolved hostname, then
delete the three forwarding headers. -/
def outboundHeaders (inbound : List (String × String)) (hostname : String) :
    List (String × String) :=
  headerDelete
    (headerDelete
      (headerDelete (headerSet inbound "Host" hostname) "x-forwarded-for")
      "x-forwarded-host")
    "x-forwarded-proto"

/-- A header name the forwarder refuses to carry over: the three
forwarding-metadata names plus any caller-supplied host. -/
def restrictedHeader (name : String) : Bool :=
  lowerS name == "x-forwarded-for" || lowerS name == "x-forwarded-host" ||
    lowerS name == "x-forwarded-proto" || lowerS name == "host"

/-- The parsed target URL, the fields of the runtime URL object the
handlers read: `protocol`/`Scheme`, `hostname`, explicit `port`,
`pathname`/`Path` and `search`/`RawQuery`. -/
structure TargetSpec where
  protocol : String
  hostname : String
  port : Option Nat
  pathname : String
  search : String
deriving DecidableEq

/-- Prefix of a list before the first occurrence of a separator, with the
remainder after it; `none` when the separator is absent. -/
def breakAtFirst (sep : Char) : List Char → Option (List Char × List Char)
  | [] => none
  | c :: rest =>
    if c = sep then some ([], rest)
    else
      match breakAtFirst sep rest with
      | none => none
      | some (a, b) => some (c :: a, b)

/-- ASCII letter test, for the leading scheme character. -/
def isAlphaChar (c : Char) : Bool :=
  (decide (65 ≤ c.toNat) && decide (c.toNat ≤ 90)) ||
    (decide (97 ≤ c.toNat) && decide (c.toNat ≤ 122))

/-- Characters allowed in a URL scheme after the first letter. -/
def isSchemeChar (c : Char) : Bool :=
  isAlphaChar c || isDigitChar c || decide (c = '+') || decide (c = '-') || decide (c = '.')

/-- Split an authority at its last colon into host and port text. -/
def splitHostPort (auth : List Char) : List Char × Option (List Char) :=
  match breakAtFirst ':' auth.reverse with
  | none => (auth, none)
  | some (revPort, revHost) => (revHost.reverse, some revPort.reverse)

/-- Modelled from the spec: the runtime absolute-URL parser (`new URL` in
JS, `url.Parse` in Go) is an external collaborator of the repository.
Following §4.2 of the spec it accepts `scheme://host[:port][/path][?query]`,
rejects inputs without an absolute scheme/authority or with a non-numeric
port, lowercases scheme and host, defaults an empty path to `/` and keeps
the query verbatim.  IPv6 bracket authorities and userinfo are not
modelled. -/
def parseURL (s : String) : Option TargetSpec :=
  match breakAtFirst ':' s.data with
  | none => none
  | some (schemeCs, afterColon) =>
    match schemeCs with
    | [] => none
    | c0 :: crest =>
      if isAlphaChar c0 && (c0 :: crest).all isSchemeChar then
        match afterColon with
        | '/' :: '/' :: rest =>
          let authority := rest.takeWhile fun c => c ≠ '/' && c ≠ '?' && c ≠ '#'
          let tail := rest.drop authority.length
          if authority = [] then none
          else
            let hp := splitHostPort authority
            let host := hp.1
            if host = [] then none
            else
              let portVal : Option (Option Nat) :=
                match hp.2 with
                | none => some none
                | some [] => some none
                | some ps => if ps.all isDigitChar then some (some (decVal ps)) else none
              match portVal with
              | none => none
              | some port =>
                let beforeFrag := tail.takeWhile fun c => c ≠ '#'
                let pathSearch :=
                  match breakAtFirst '?' beforeFrag with
                  | none => (beforeFrag, ([] : List Char))
                  | some (p, q) => (p, '?' :: q)
                let path := if pathSearch.1 = [] then "/".data else pathSearch.1
                some
                  { protocol := String.mk ((c0 :: crest).map lowerChar ++ [':'])
                    hostname := String.mk (host.map lowerChar)
                    port := port
                    pathname := String.mk path
                    search := String.mk pathSearch.2 }
        | _ => none
      else none

/-- The hostnames on which the two classifiers can disagree: strings of
exactly four dot-separated groups where either every group is a 1–3
digit run but some value exceeds 255 (JS blocks, Go skips its dotted-quad
checks), or every group is a 1–3 digit run with all values 255 (the
broadcast address: JS blocks, Go has no broadcast rule), or some group is
not a 1–3 digit run yet Go's more lenient `Atoi` parse accepts all four
groups and its first-octet rules fire (Go blocks, the JS regex never
matched). -/
def classifiersDisagreeAt (cs : List Char) : Bool :=
  match splitOnDot cs with
  | [p1, p2, p3, p4] =>
    if digits13 p1 && digits13 p2 && digits13 p3 && digits13 p4 then
      if decVal p1 > 255 ∨ decVal p2 > 255 ∨ decVal p3 > 255 ∨ decVal p4 > 255 then true
      else if decVal p1 = 255 ∧ decVal p2 = 255 ∧ decVal p3 = 255 ∧ decVal p4 = 255 then true
      else false
    else goQuadBool cs
  | _ => false

/-- Result of the config-store lookup for the valid API key
(`js/src/index.js:82-88`): the store may be unavailable (the `catch`
branch substitutes the fallback `"testing"`), may hold a value for the
`key` entry, or may exist without that entry (`get` yields null). -/
inductive KeyLookup where
  | unavailable : KeyLookup
  | found : String → KeyLookup
  | missingEntry : KeyLookup
deriving DecidableEq

/-- The effective `validKey` after the try/catch: the stored value, the
fallback `"testing"` when the store is unavailable, or null (`none`) when
the entry is absent. -/
def lookupValidKey : KeyLookup → Option String
  | .unavailable => some "testing"
  | .found v => some v
  | .missingEntry => none

/-- The auth test `!apiKey || apiKey !== validKey` (`js/src/index.js:90`): a missing or
empty key parameter is falsy, otherwise strict comparison against
`validKey`. -/
def jsAuthRejects (lookup : KeyLookup) (key : Option String) : Bool :=
  match key with
  | none => true
  | some k => k == "" || !(lookupValidKey lookup == some k)

/-- The inbound request as the handler reads it: the two query
parameters, the method, the header multimap and the body stream. -/
structure InboundRequest where
  key : Option String
  url : Option String
  method : String
  headers : List (String × String)
  body : String
deriving DecidableEq

/-- The dynamic-backend registration argument built by the handler
(`js/src/index.js:172-183`): name, connection target and the fixed TLS
policy constants (TLS versions in tenths, timeouts in milliseconds). -/
structure BackendSpec where
  name : String
  target : String
  hostOverride : String
  useSSL : Bool
  sniHostname : String
  tlsMinTenths : Nat
  tlsMaxTenths : Nat
  connectTimeoutMs : Nat
  firstByteTimeoutMs : Nat
  betweenBytesTimeoutMs : Nat
deriving DecidableEq

/-- The outbound origin request (`js/src/index.js:187-207`): path plus
query, method, sanitised headers, pass-through body, cache bypass. -/
structure OutboundRequest where
  path : String
  method : String
  headers : List (String × String)
  body : String
  cachePass : Bool
deriving DecidableEq

/-- An upstream response relayed verbatim. -/
structure UpstreamResponse where
  status : Nat
  headers : List (String × String)
  body : String
deriving DecidableEq

/-- Outcome of the outbound fetch through the TLS capability: a response,
or a thrown error with its message. -/
inductive FetchOutcome where
  | ok : UpstreamResponse → FetchOutcome
  | err : String → FetchOutcome

/-- Result of the admission phase: a rejection response (status,
content type, JSON body fields) produced before any network action, or
the decision to forward, carrying the original target parameter (for the
502 diagnostics), the backend registration and the outbound request. -/
inductive AdmissionResult where
  | reject : Nat → String → List (String × String) → AdmissionResult
  | forward : String → BackendSpec → OutboundRequest → AdmissionResult
deriving DecidableEq

/-- Modelled from the spec: the `details` string of the InvalidURL
response is the runtime parser's exception message, whose exact text the
spec leaves to the runtime. -/
def urlErrorDetail (u : String) : String :=
  "invalid URL: " ++ u

/-- The backend registration built for a resolved target
(`js/src/index.js:168-183`), port defaulting to 443. -/
def mkBackendSpec (t : TargetSpec) : BackendSpec :=
  { name := backendName t.hostname (t.port.getD 443)
    target := backendTarget t.hostname (t.port.getD 443)
    hostOverride := t.hostname
    useSSL := true
    sniHostname := t.hostname
    tlsMinTenths := 12
    tlsMaxTenths := 13
    connectTimeoutMs := 10000
    firstByteTimeoutMs := 30000
    betweenBytesTimeoutMs := 30000 }

/-- The outbound request built for a resolved target
(`js/src/index.js:187-207`): `pathname + search`, inbound method and
body, sanitised headers, cache override `pass`. -/
def mkOutboundRequest (req : InboundRequest) (t : TargetSpec) : OutboundRequest :=
  { path := t.pathname ++ t.search
    method := req.method
    headers := outboundHeaders req.headers t.hostname
    body := req.body
    cachePass := true }

/-- The admission pipeline of `handleRequest` (`js/src/index.js:75-168`),
every step before the try block, in source order: API key check, `url`
parameter presence, URL parse, scheme check, SSRF classification.  Each
rejection is the literal JSON response the source constructs. -/
def admission (lookup : KeyLookup) (req : InboundRequest) : AdmissionResult :=
  if jsAuthRejects lookup req.key then
    .reject 403 "application/json"
      [("error", "Unauthorized"), ("message", "Invalid or missing API key")]
  else
    match req.url with
    | none =>
      .reject 400 "application/json"
        [("error", "Missing 'url' query parameter"),
         ("usage", "Add ?url=https://example.com/path to your request")]
    | some u =>
      if u = "" then
        .reject 400 "application/json"
          [("error", "Missing 'url' query parameter"),
           ("usage", "Add ?url=https://example.com/path to your request")]
      else
        match parseURL u with
        | none =>
          .reject 400 "application/json"
            [("error", "Invalid URL provided"), ("details", urlErrorDetail u)]
        | some t =>
          if t.protocol ≠ "https:" then
            .reject 400 "application/json"
              [("error", "Only https URLs are supported"),
               ("usage", "Use https:// URLs (e.g., ?url=https://example.com/path)")]
          else if jsIsPrivateHost t.hostname then
            .reject 403 "application/json"
              [("error", "Forbidden"),
               ("message", "Requests to private or internal hosts are not allowed")]
          else
            .forward u (mkBackendSpec t) (mkOutboundRequest req t)

/-- The response the caller receives: a relayed upstream response, or a
JSON error response (status, content type, body fields). -/
inductive HandlerResponse where
  | relayed : UpstreamResponse → HandlerResponse
  | jsonError : Nat → String → List (String × String) → HandlerResponse
deriving DecidableEq

/-- Discriminator: the response is a relayed upstream response. -/
def isRelayedResponse : HandlerResponse → Bool
  | .relayed _ => true
  | .jsonError _ _ _ => false

/-- Discriminator: the response is a structured JSON error. -/
def isErrorResponse : HandlerResponse → Bool
  | .relayed _ => false
  | .jsonError _ _ _ => true

/-- The full handler (`js/src/index.js:75-225`): admission, then the try
block whose backend registration and fetch are abstracted as the
`fetchOracle` capability; a thrown error becomes the 502 response of the
catch block (`js/src/index.js:212-224`). -/
def handleRequest (lookup : KeyLookup) (req : InboundRequest)
    (fetchOracle : BackendSpec → OutboundRequest → FetchOutcome) : HandlerResponse :=
  match admission lookup req with
  | .reject status ct fields => .jsonError status ct fields
  | .forward u b o =>
    match fetchOracle b o with
    | .ok resp => .relayed resp
    | .err msg =>
      .jsonError 502 "application/json"
        [("error", "Failed to fetch from origin"), ("details", msg), ("target", u)]

/-- A fetch capability that always fails, used to exercise the handler on
concrete inputs. -/
def fetchAlwaysFails : BackendSpec → OutboundRequest → FetchOutcome :=
  fun _ _ => .err "connection refused"

/-- A fetch capability that always succeeds with a fixed response, used
to exercise the handler on concrete inputs. -/
def fetchAlwaysOk : BackendSpec → OutboundRequest → FetchOutcome :=
  fun _ _ => .ok { status := 200, headers := [], body := "ok" }


/-! ## Basic lemmas on the string primitives -/

theorem splitOnDot_ne_nil (cs : List Char) : splitOnDot cs ≠ [] := by
  cases cs with
  | nil => simp [splitOnDot]
  | cons c rest =>
    unfold splitOnDot
    split
    · simp
    · cases h : splitOnDot rest <;> simp

theorem joinDots_splitOnDot (cs : List Char) : joinDots (splitOnDot cs) = cs := by
  induction cs with
  | nil => rfl
  | cons c rest ih =>
    unfold splitOnDot
    by_cases hc : c = '.'
    · rw [if_pos hc]
      rcases hp : splitOnDot rest with _ | ⟨q, qs⟩
      · exact absurd hp (splitOnDot_ne_nil rest)
      · rw [hp] at ih
        subst hc
        simpa [joinDots] using ih
    · rw [if_neg hc]
      rcases hp : splitOnDot rest with _ | ⟨q, qs⟩
      · exact absurd hp (splitOnDot_ne_nil rest)
      · rw [hp] at ih
        cases qs with
        | nil => simpa [joinDots] using ih
        | cons q2 qs2 => simpa [joinDots] using ih

theorem lowerChar_digit {c : Char} (h : isDigitChar c = true) : lowerChar c = c := by
  unfold isDigitChar at h
  simp only [Bool.and_eq_true, decide_eq_true_eq] at h
  unfold lowerChar
  rw [if_neg]
  omega

theorem map_lower_id : ∀ (cs : List Char),
    (∀ c ∈ cs, isDigitChar c = true ∨ c = '.') → cs.map lowerChar = cs
  | [], _ => rfl
  | c :: cs, h => by
    rw [List.map_cons, map_lower_id cs (fun x hx => h x (List.mem_cons_of_mem c hx))]
    rcases h c (List.mem_cons_self c cs) with hd | hd
    · rw [lowerChar_digit hd]
    · subst hd
      rw [show lowerChar '.' = '.' from by decide]

theorem digits13_all {p : List Char} (h : digits13 p = true) :
    ∀ c ∈ p, isDigitChar c = true := by
  unfold digits13 at h
  simp only [Bool.and_eq_true, List.all_eq_true, decide_eq_true_eq] at h
  exact h.2

theorem digits13_ne_nil {p : List Char} (h : digits13 p = true) : p ≠ [] := by
  unfold digits13 at h
  simp only [Bool.and_eq_true, decide_eq_true_eq] at h
  intro he
  subst he
  simp at h

theorem goAtoi_digits13 {p : List Char} (h : digits13 p = true) :
    goAtoi p = some ((decVal p : Nat) : Int) := by
  have hall := digits13_all h
  cases p with
  | nil => exact absurd rfl (digits13_ne_nil h)
  | cons c rest =>
    have hc : isDigitChar c = true := hall c (List.mem_cons_self _ _)
    have hplus : ¬(c = '+') := fun he => by subst he; exact absurd hc (by decide)
    have hminus : ¬(c = '-') := fun he => by subst he; exact absurd hc (by decide)
    have hall' : ((c :: rest).all isDigitChar) = true := by
      simp only [List.all_eq_true]
      exact hall
    simp only [goAtoi]
    rw [if_neg hplus, if_neg hminus, if_pos hall']

theorem goOctet_digits13 {p : List Char} (h : digits13 p = true) (hv : decVal p ≤ 255) :
    goOctet p = some (decVal p) := by
  simp only [goOctet, goAtoi_digits13 h]
  rw [if_pos ⟨by exact_mod_cast Nat.zero_le _, by exact_mod_cast hv⟩]
  simp

theorem quadChecks_eq (a b c d : Nat) (h1 : ¬(a > 255 ∨ b > 255 ∨ c > 255 ∨ d > 255))
    (h2 : ¬(a = 255 ∧ b = 255 ∧ c = 255 ∧ d = 255)) :
    quadChecksJS a b c d = quadChecksGo a b := by
  unfold quadChecksJS quadChecksGo
  split_ifs <;> first | rfl | omega

theorem jsQuad_eq_goQuad (cs : List Char) (h : classifiersDisagreeAt cs = false) :
    jsQuadBool cs = goQuadBool cs := by
  unfold classifiersDisagreeAt at h
  unfold goQuadBool at h
  unfold jsQuadBool goQuadBool
  rcases hs : splitOnDot cs with _ | ⟨p1, _ | ⟨p2, _ | ⟨p3, _ | ⟨p4, _ | ⟨p5, ps⟩⟩⟩⟩⟩ <;>
      rw [hs] at h <;> (try dsimp only at h ⊢) <;> (try rfl)
  by_cases hd : (digits13 p1 && digits13 p2 && digits13 p3 && digits13 p4) = true
  · rw [if_pos hd] at h ⊢
    have hd' := hd
    simp only [Bool.and_eq_true] at hd'
    split_ifs at h with h1 h2
    have e1 := goOctet_digits13 hd'.1.1.1 (by omega)
    have e2 := goOctet_digits13 hd'.1.1.2 (by omega)
    have e3 := goOctet_digits13 hd'.1.2 (by omega)
    have e4 := goOctet_digits13 hd'.2 (by omega)
    rw [e1, e2, e3, e4]
    exact quadChecks_eq _ _ _ _ h1 h2
  · rw [if_neg hd] at h ⊢
    exact h.symm

theorem not_lower_literal (cs : List Char)
    (hchars : ∀ c ∈ cs, isDigitChar c = true ∨ c = '.')
    (t : List Char) (bad : Char) (hmem : bad ∈ t)
    (hbad : (isDigitChar bad = true ∨ bad = '.') → False) :
    ¬ cs.map lowerChar = t := by
  intro he
  rw [map_lower_id cs hchars] at he
  exact hbad (hchars bad (he ▸ hmem))

/-! ## Claims about the host classifiers -/

set_option maxHeartbeats 1000000 in
/-- C1: For every hostname of dotted-quad form (four dot-separated groups
of one to three decimal digits) whose octet values lie in [0,255] and
whose leading octets fall in 127.x.x.x, 10.x.x.x, 172.16-31.x.x,
192.168.x.x, 169.254.x.x or 0.x.x.x, both host classifiers return
blocked; on the inputs `8.8.8.8` and `example.com` both return
allowed. -/
theorem isPrivateHost_blocks_private_ranges (h : String) (p1 p2 p3 p4 : List Char)
    (hsplit : splitOnDot h.data = [p1, p2, p3, p4])
    (hd1 : digits13 p1 = true) (hd2 : digits13 p2 = true)
    (hd3 : digits13 p3 = true) (hd4 : digits13 p4 = true)
    (hv1 : decVal p1 ≤ 255) (hv2 : decVal p2 ≤ 255)
    (hv3 : decVal p3 ≤ 255) (hv4 : decVal p4 ≤ 255)
    (hrule : decVal p1 = 127 ∨ decVal p1 = 10 ∨
      (decVal p1 = 172 ∧ 16 ≤ decVal p2 ∧ decVal p2 ≤ 31) ∨
      (decVal p1 = 192 ∧ decVal p2 = 168) ∨
      (decVal p1 = 169 ∧ decVal p2 = 254) ∨ decVal p1 = 0) :
    (jsIsPrivateHost h = true ∧ goIsPrivateHost h = true) ∧
    jsIsPrivateHost "8.8.8.8" = false ∧ goIsPrivateHost "8.8.8.8" = false ∧
    jsIsPrivateHost "example.com" = false ∧ goIsPrivateHost "example.com" = false := by
  have hchars : ∀ c ∈ h.data, isDigitChar c = true ∨ c = '.' := by
    have hjoin : joinDots [p1, p2, p3, p4] = h.data := by
      rw [← hsplit]
      exact joinDots_splitOnDot h.data
    intro c hc
    rw [← hjoin] at hc
    simp only [joinDots, List.mem_append, List.mem_cons] at hc
    rcases hc with hc | hc | hc | hc | hc | hc | hc <;>
      first
        | exact Or.inr hc
        | exact Or.inl (digits13_all hd1 c hc)
        | exact Or.inl (digits13_all hd2 c hc)
        | exact Or.inl (digits13_all hd3 c hc)
        | exact Or.inl (digits13_all hd4 c hc)
  have hq1 := not_lower_literal h.data hchars "localhost".data 'l' (by decide) (by decide)
  have hq2 := not_lower_literal h.data hchars "localhost.localdomain".data 'l' (by decide) (by decide)
  have hq3 := not_lower_literal h.data hchars "::1".data ':' (by decide) (by decide)
  have hq4 := not_lower_literal h.data hchars "[::1]".data ':' (by decide) (by decide)
  have hjq : jsQuadBool h.data = true := by
    unfold jsQuadBool
    rw [hsplit]
    dsimp only
    rw [if_pos (by simp [hd1, hd2, hd3, hd4])]
    unfold quadChecksJS
    split_ifs <;> first | rfl | omega
  have hgq : goQuadBool h.data = true := by
    unfold goQuadBool
    rw [hsplit]
    dsimp only
    rw [goOctet_digits13 hd1 hv1, goOctet_digits13 hd2 hv2,
      goOctet_digits13 hd3 hv3, goOctet_digits13 hd4 hv4]
    dsimp only
    unfold quadChecksGo
    split_ifs <;> first | rfl | omega
  refine ⟨⟨?_, ?_⟩, by decide, by decide, by decide, by decide⟩
  · unfold jsIsPrivateHost jsIsPrivateHostL
    rw [if_neg (not_or.mpr ⟨hq1, hq2⟩), if_pos hjq]
  · unfold goIsPrivateHost goIsPrivateHostL
    rw [if_neg (not_or.mpr ⟨hq1, hq2⟩), if_neg (not_or.mpr ⟨hq3, hq4⟩), if_pos hgq]

theorem isPrivateHost_blocks_private_ranges_witness :
    (jsIsPrivateHost "10.0.0.1" = true ∧ goIsPrivateHost "10.0.0.1" = true) ∧
    jsIsPrivateHost "8.8.8.8" = false ∧ goIsPrivateHost "8.8.8.8" = false ∧
    jsIsPrivateHost "example.com" = false ∧ goIsPrivateHost "example.com" = false :=
  isPrivateHost_blocks_private_ranges "10.0.0.1" "10".data "0".data "0".data "1".data
    (by decide) (by decide) (by decide) (by decide) (by decide)
    (by decide) (by decide) (by decide) (by decide)
    (Or.inr (Or.inl (by decide)))

/-- C2: the claim asks that any four-group numeric hostname with a group
out of [0,255] be blocked (fail safe).  The Go classifier instead fails
open: on the spec's own example `999.1.1.1` the invalid octet makes
`valid = false`, the dotted-quad rules are skipped, and the host is
allowed; the JS classifier blocks it, confirming the intent.  For groups
of four or more digits (e.g. `1000.1.1.1`) even the JS classifier
allows, because its regex only matches 1-3 digit groups. -/
theorem goClassifier_fails_open_on_invalid_octet :
    goIsPrivateHost "999.1.1.1" = false ∧ jsIsPrivateHost "999.1.1.1" = true ∧
    jsIsPrivateHost "1000.1.1.1" = false ∧ goIsPrivateHost "1000.1.1.1" = false := by
  decide

/-! ## Claims comparing the two classifiers -/

/-- C10 (counterexample): the two classifiers are not extensionally
equal — on `999.1.1.1` the JS classifier blocks (invalid octet treated as
private) while the Go classifier allows (its dotted-quad block is skipped
when an octet is out of range). -/
theorem isPrivateHost_js_ne_go :
    jsIsPrivateHost "999.1.1.1" ≠ goIsPrivateHost "999.1.1.1" := by
  decide

/-- C10 (amended): on every all-ASCII hostname — where JS `toLowerCase`
and Go `strings.ToLower` coincide, so `lowerChar` is faithful to both —
outside the explicit disagreement set (dotted-quad shaped strings whose
all-digit groups contain a value above 255, the all-255 broadcast
address, and strings where only Go's lenient integer parse accepts all
four groups with a matching first-octet rule), the two classifiers
return the same verdict.  Non-ASCII hostnames are excluded because the
runtimes' different Unicode lowercasing is itself a source of divergence
(e.g. U+0130: Go lowers `İNTRANET.x` to a blocked `intranet.` prefix,
JS produces `i` plus a combining dot and allows). -/
theorem isPrivateHost_js_eq_go (h : String)
    (_hascii : h.data.all isAsciiChar = true)
    (hdis : classifiersDisagreeAt h.data = false) :
    jsIsPrivateHost h = goIsPrivateHost h := by
  unfold jsIsPrivateHost goIsPrivateHost jsIsPrivateHostL goIsPrivateHostL
  have hq := jsQuad_eq_goQuad h.data hdis
  by_cases h1 : h.data.map lowerChar = "localhost".data ∨
      h.data.map lowerChar = "localhost.localdomain".data
  · rw [if_pos h1, if_pos h1]
  · rw [if_neg h1, if_neg h1, hq]
    by_cases h2 : h.data.map lowerChar = "::1".data ∨ h.data.map lowerChar = "[::1]".data
    · cases hgq : goQuadBool h.data <;> simp [hgq, h2]
    · rw [if_neg h2, if_neg h2]

theorem isPrivateHost_js_eq_go_witness :
    "example.com".data.all isAsciiChar = true ∧
    classifiersDisagreeAt "example.com".data = false ∧
    jsIsPrivateHost "example.com" = goIsPrivateHost "example.com" :=
  ⟨by decide, by decide, isPrivateHost_js_eq_go "example.com" (by decide) (by decide)⟩

/-! ## Claims about the upstream identity derivation -/

theorem string_data_append (a b : String) : (a ++ b).data = a.data ++ b.data := rfl

theorem isBackendNameChar_iff (c : Char) :
    isBackendNameChar c = true ↔
      ((65 ≤ c.toNat ∧ c.toNat ≤ 90) ∨ (97 ≤ c.toNat ∧ c.toNat ≤ 122) ∨
        (48 ≤ c.toNat ∧ c.toNat ≤ 57)) := by
  simp [isBackendNameChar, and_assoc, or_assoc]

/-- C7: the upstream identity derivation is a deterministic pure function
of (hostname, port): deriving twice yields identical results, the name
token is the prefix `dyn_`, the hostname with every character outside
`[A-Za-z0-9]` replaced by `_`, a separator `_`, and the decimal port, and
the connection target is the literal `hostname:port`; the spec's example
`a.b-c.com`, 443 derives `dyn_a_b_c_com_443`. -/
theorem backendIdentity_deterministic_format (host : String) (port : Nat) :
    (backendName host port = backendName host port ∧
      backendTarget host port = backendTarget host port) ∧
    (backendName host port).data =
      "dyn_".data ++
        (host.data.map fun c =>
          if (65 ≤ c.toNat ∧ c.toNat ≤ 90) ∨ (97 ≤ c.toNat ∧ c.toNat ≤ 122) ∨
              (48 ≤ c.toNat ∧ c.toNat ≤ 57) then c else '_') ++
        "_".data ++ (Nat.repr port).data ∧
    backendTarget host port = host ++ ":" ++ Nat.repr port ∧
    backendName "a.b-c.com" 443 = "dyn_a_b_c_com_443" := by
  refine ⟨⟨rfl, rfl⟩, ?_, rfl, by decide⟩
  have hmap : host.data.map (fun c => if isBackendNameChar c then c else '_') =
      host.data.map (fun c =>
        if (65 ≤ c.toNat ∧ c.toNat ≤ 90) ∨ (97 ≤ c.toNat ∧ c.toNat ≤ 122) ∨
            (48 ≤ c.toNat ∧ c.toNat ≤ 57) then c else '_') :=
    List.map_congr_left fun c _ => if_congr (isBackendNameChar_iff c) rfl rfl
  calc (backendName host port).data
      = "dyn_".data ++ host.data.map (fun c => if isBackendNameChar c then c else '_') ++
          "_".data ++ (Nat.repr port).data := rfl
    _ = _ := by rw [hmap]

/-! ## Claims about the header policy -/

theorem lowerS_host : lowerS "Host" = "host" := by decide

/-- C8: the outbound header set of a forwarded request is exactly the
inbound headers minus (case-insensitively) `x-forwarded-for`,
`x-forwarded-host`, `x-forwarded-proto` and any caller-supplied host,
followed by `Host` set to the resolved hostname; hence it contains none
of the three forwarding headers, its sole host entry is
`("Host", hostname)`, and every unrestricted inbound pair is carried over
unchanged. -/
theorem outboundHeaders_policy (inbound : List (String × String)) (hostname : String) :
    outboundHeaders inbound hostname =
      inbound.filter (fun p => ! restrictedHeader p.1) ++ [("Host", hostname)] ∧
    (∀ p ∈ outboundHeaders inbound hostname,
      lowerS p.1 ≠ "x-forwarded-for" ∧ lowerS p.1 ≠ "x-forwarded-host" ∧
        lowerS p.1 ≠ "x-forwarded-proto") ∧
    (outboundHeaders inbound hostname).filter (fun p => lowerS p.1 == "host") =
      [("Host", hostname)] := by
  have hboolid : ∀ (a b c d : Bool), (!a && !b && !c && !d) = !(b || c || d || a) := by
    decide
  have hmain : outboundHeaders inbound hostname =
      inbound.filter (fun p => ! restrictedHeader p.1) ++ [("Host", hostname)] := by
    unfold outboundHeaders headerSet headerDelete
    rw [List.filter_append, List.filter_append, List.filter_append]
    have hsing1 : List.filter (fun p => lowerS p.1 != lowerS "x-forwarded-for")
        [(("Host" : String), hostname)] = [("Host", hostname)] := by
      simp only [List.filter]
      rw [show (lowerS "Host" != lowerS "x-forwarded-for") = true from by decide]
    rw [hsing1]
    have hsing2 : List.filter (fun p => lowerS p.1 != lowerS "x-forwarded-host")
        [(("Host" : String), hostname)] = [("Host", hostname)] := by
      simp only [List.filter]
      rw [show (lowerS "Host" != lowerS "x-forwarded-host") = true from by decide]
    rw [hsing2]
    have hsing3 : List.filter (fun p => lowerS p.1 != lowerS "x-forwarded-proto")
        [(("Host" : String), hostname)] = [("Host", hostname)] := by
      simp only [List.filter]
      rw [show (lowerS "Host" != lowerS "x-forwarded-proto") = true from by decide]
    rw [hsing3]
    rw [List.filter_filter, List.filter_filter, List.filter_filter]
    refine congrArg (· ++ [(("Host" : String), hostname)]) ?_
    refine List.filter_congr fun p _ => ?_
    have e0 : lowerS "Host" = "host" := by decide
    have e1 : lowerS "x-forwarded-for" = "x-forwarded-for" := by decide
    have e2 : lowerS "x-forwarded-host" = "x-forwarded-host" := by decide
    have e3 : lowerS "x-forwarded-proto" = "x-forwarded-proto" := by decide
    rw [e0, e1, e2, e3]
    unfold restrictedHeader
    simp only [bne]
    rw [← hboolid]
    ac_rfl
  refine ⟨hmain, ?_, ?_⟩
  · intro p hp
    rw [hmain] at hp
    rcases List.mem_append.mp hp with hp | hp
    · have := (List.mem_filter.mp hp).2
      simp only [restrictedHeader, Bool.not_eq_true', Bool.or_eq_false_iff,
        beq_eq_false_iff_ne] at this
      exact ⟨this.1.1.1, this.1.1.2, this.1.2⟩
    · have he := List.mem_singleton.mp hp
      subst he
      refine ⟨?_, ?_, ?_⟩
      · show lowerS "Host" ≠ "x-forwarded-for"
        decide
      · show lowerS "Host" ≠ "x-forwarded-host"
        decide
      · show lowerS "Host" ≠ "x-forwarded-proto"
        decide
  · rw [hmain, List.filter_append, List.filter_filter]
    have hleft : List.filter
        (fun a => (lowerS a.1 == "host") && ! restrictedHeader a.1) inbound = [] := by
      rw [List.filter_eq_nil_iff]
      intro a _
      simp only [restrictedHeader, Bool.and_eq_true, Bool.not_eq_true',
        Bool.or_eq_false_iff, Bool.not_eq_true]
      rintro ⟨h1, h2⟩
      rw [h1] at h2
      simp at h2
    rw [hleft]
    simp only [List.filter]
    rw [show (lowerS "Host" == "host") = true from by decide]
    rfl

/-! ## Claims about the admission controller -/

theorem admission_enum (lookup : KeyLookup) (req : InboundRequest) :
    admission lookup req = .reject 403 "application/json"
        [("error", "Unauthorized"), ("message", "Invalid or missing API key")] ∨
    admission lookup req = .reject 400 "application/json"
        [("error", "Missing 'url' query parameter"),
         ("usage", "Add ?url=https://example.com/path to your request")] ∨
    (∃ u, admission lookup req = .reject 400 "application/json"
        [("error", "Invalid URL provided"), ("details", urlErrorDetail u)]) ∨
    admission lookup req = .reject 400 "application/json"
        [("error", "Only https URLs are supported"),
         ("usage", "Use https:// URLs (e.g., ?url=https://example.com/path)")] ∨
    admission lookup req = .reject 403 "application/json"
        [("error", "Forbidden"),
         ("message", "Requests to private or internal hosts are not allowed")] ∨
    (∃ u b o, admission lookup req = .forward u b o) := by
  cases hb : jsAuthRejects lookup req.key with
  | true =>
    left
    unfold admission
    rw [if_pos hb]
  | false =>
    cases hu : req.url with
    | none =>
      right; left
      unfold admission
      rw [if_neg (by simp [hb]), hu]
    | some u =>
      by_cases he : u = ""
      · right; left
        unfold admission
        rw [if_neg (by simp [hb]), hu]
        dsimp only
        rw [if_pos he]
      · cases hp : parseURL u with
        | none =>
          right; right; left
          refine ⟨u, ?_⟩
          unfold admission
          rw [if_neg (by simp [hb]), hu]
          dsimp only
          rw [if_neg he, hp]
        | some t =>
          by_cases hs : t.protocol = "https:"
          · by_cases hpr : jsIsPrivateHost t.hostname = true
            · right; right; right; right; left
              unfold admission
              rw [if_neg (by simp [hb]), hu]
              dsimp only
              rw [if_neg he, hp]
              dsimp only
              rw [if_neg (not_not_intro hs), if_pos hpr]
            · right; right; right; right; right
              refine ⟨u, mkBackendSpec t, mkOutboundRequest req t, ?_⟩
              unfold admission
              rw [if_neg (by simp [hb]), hu]
              dsimp only
              rw [if_neg he, hp]
              dsimp only
              rw [if_neg (not_not_intro hs), if_neg hpr]
          · right; right; right; left
            unfold admission
            rw [if_neg (by simp [hb]), hu]
            dsimp only
            rw [if_neg he, hp]
            dsimp only
            rw [if_pos hs]

/-- C5: whenever the key parameter is missing or differs from the
configured valid key (the config-store value, or the fallback `testing`
when the store is unavailable), the handler responds 403 Unauthorized
before any other processing — the admission result is that rejection,
independent of the `url` parameter and of the fetch capability. -/
theorem unauthorized_rejected_first (lookup : KeyLookup) (req : InboundRequest)
    (hkey : req.key = none ∨ ∃ k, req.key = some k ∧ lookupValidKey lookup ≠ some k) :
    admission lookup req = .reject 403 "application/json"
        [("error", "Unauthorized"), ("message", "Invalid or missing API key")] ∧
    ∀ oracle, handleRequest lookup req oracle = .jsonError 403 "application/json"
        [("error", "Unauthorized"), ("message", "Invalid or missing API key")] := by
  have ha : jsAuthRejects lookup req.key = true := by
    rcases hkey with hk | ⟨k, hk, hne⟩
    · rw [hk]
      rfl
    · rw [hk]
      unfold jsAuthRejects
      dsimp only
      rw [beq_eq_false_iff_ne.mpr hne]
      simp
  have hadm : admission lookup req = .reject 403 "application/json"
      [("error", "Unauthorized"), ("message", "Invalid or missing API key")] := by
    unfold admission
    rw [if_pos ha]
  exact ⟨hadm, fun oracle => by unfold handleRequest; rw [hadm]⟩

theorem unauthorized_rejected_first_witness :
    admission .unavailable ⟨none, some "https://example.com", "GET", [], ""⟩ =
      .reject 403 "application/json"
        [("error", "Unauthorized"), ("message", "Invalid or missing API key")] ∧
    handleRequest .unavailable ⟨none, some "https://example.com", "GET", [], ""⟩
        fetchAlwaysOk =
      .jsonError 403 "application/json"
        [("error", "Unauthorized"), ("message", "Invalid or missing API key")] :=
  ⟨(unauthorized_rejected_first .unavailable
      ⟨none, some "https://example.com", "GET", [], ""⟩ (Or.inl rfl)).1,
   (unauthorized_rejected_first .unavailable
      ⟨none, some "https://example.com", "GET", [], ""⟩ (Or.inl rfl)).2 fetchAlwaysOk⟩

/-- C6: with a valid key and a non-empty `url` parameter that the URL
parser rejects, the handler fails with InvalidURL: HTTP 400 and error
`Invalid URL provided`. -/
theorem invalidURL_rejected (lookup : KeyLookup) (req : InboundRequest) (u : String)
    (hauth : jsAuthRejects lookup req.key = false)
    (hu : req.url = some u) (hne : u ≠ "") (hparse : parseURL u = none) :
    admission lookup req = .reject 400 "application/json"
        [("error", "Invalid URL provided"), ("details", urlErrorDetail u)] ∧
    ∀ oracle, handleRequest lookup req oracle = .jsonError 400 "application/json"
        [("error", "Invalid URL provided"), ("details", urlErrorDetail u)] := by
  have hadm : admission lookup req = .reject 400 "application/json"
      [("error", "Invalid URL provided"), ("details", urlErrorDetail u)] := by
    unfold admission
    rw [if_neg (by simp [hauth]), hu]
    dsimp only
    rw [if_neg hne, hparse]
  exact ⟨hadm, fun oracle => by unfold handleRequest; rw [hadm]⟩

theorem invalidURL_rejected_witness :
    admission .unavailable ⟨some "testing", some "not a url", "GET", [], ""⟩ =
      .reject 400 "application/json"
        [("error", "Invalid URL provided"), ("details", urlErrorDetail "not a url")] ∧
    handleRequest .unavailable ⟨some "testing", some "not a url", "GET", [], ""⟩
        fetchAlwaysOk =
      .jsonError 400 "application/json"
        [("error", "Invalid URL provided"), ("details", urlErrorDetail "not a url")] :=
  ⟨(invalidURL_rejected .unavailable ⟨some "testing", some "not a url", "GET", [], ""⟩
      "not a url" (by decide) rfl (by decide) (by decide)).1,
   (invalidURL_rejected .unavailable ⟨some "testing", some "not a url", "GET", [], ""⟩
      "not a url" (by decide) rfl (by decide) (by decide)).2 fetchAlwaysOk⟩

/-- C3: with a valid key and a parseable https target whose hostname the
classifier blocks, the handler responds 403 `Forbidden` and performs no
network action: the admission result is a rejection, never a forward (so
no dynamic backend registration is produced), and the final response is
the same 403 for every fetch capability (so no outbound fetch can
influence or be caused by it). -/
theorem forbidden_host_rejected_before_network (lookup : KeyLookup)
    (req : InboundRequest) (u : String) (t : TargetSpec)
    (hauth : jsAuthRejects lookup req.key = false)
    (hu : req.url = some u) (hne : u ≠ "")
    (hparse : parseURL u = some t) (hscheme : t.protocol = "https:")
    (hblocked : jsIsPrivateHost t.hostname = true) :
    admission lookup req = .reject 403 "application/json"
        [("error", "Forbidden"),
         ("message", "Requests to private or internal hosts are not allowed")] ∧
    (∀ tu b o, admission lookup req ≠ .forward tu b o) ∧
    ∀ oracle, handleRequest lookup req oracle = .jsonError 403 "application/json"
        [("error", "Forbidden"),
         ("message", "Requests to private or internal hosts are not allowed")] := by
  have hadm : admission lookup req = .reject 403 "application/json"
      [("error", "Forbidden"),
       ("message", "Requests to private or internal hosts are not allowed")] := by
    unfold admission
    rw [if_neg (by simp [hauth]), hu]
    dsimp only
    rw [if_neg hne, hparse]
    dsimp only
    rw [if_neg (not_not_intro hscheme), if_pos hblocked]
  refine ⟨hadm, ?_, fun oracle => by unfold handleRequest; rw [hadm]⟩
  intro tu b o hcon
  rw [hadm] at hcon
  exact AdmissionResult.noConfusion hcon

theorem forbidden_host_rejected_before_network_witness :
    admission .unavailable
        ⟨some "testing", some "https://169.254.169.254/latest/meta-data", "GET", [], ""⟩ =
      .reject 403 "application/json"
        [("error", "Forbidden"),
         ("message", "Requests to private or internal hosts are not allowed")] ∧
    handleRequest .unavailable
        ⟨some "testing", some "https://169.254.169.254/latest/meta-data", "GET", [], ""⟩
        fetchAlwaysOk =
      .jsonError 403 "application/json"
        [("error", "Forbidden"),
         ("message", "Requests to private or internal hosts are not allowed")] :=
  ⟨(forbidden_host_rejected_before_network .unavailable
      ⟨some "testing", some "https://169.254.169.254/latest/meta-data", "GET", [], ""⟩
      "https://169.254.169.254/latest/meta-data"
      ⟨"https:", "169.254.169.254", none, "/latest/meta-data", ""⟩
      (by decide) rfl (by decide) (by decide) rfl (by decide)).1,
   (forbidden_host_rejected_before_network .unavailable
      ⟨some "testing", some "https://169.254.169.254/latest/meta-data", "GET", [], ""⟩
      "https://169.254.169.254/latest/meta-data"
      ⟨"https:", "169.254.169.254", none, "/latest/meta-data", ""⟩
      (by decide) rfl (by decide) (by decide) rfl (by decide)).2.2 fetchAlwaysOk⟩

/-- C4: every rejection carries the status of its error kind —
Unauthorized 403, MissingParameter 400, InvalidURL 400, UnsupportedScheme
400, Forbidden 403, UpstreamFailure 502 — and every error response has
Content-Type `application/json` and a body that always contains the
`error` field. -/
theorem errorResponses_wellFormed (lookup : KeyLookup) (req : InboundRequest)
    (oracle : BackendSpec → OutboundRequest → FetchOutcome)
    (s : Nat) (ct : String) (fields : List (String × String))
    (h : handleRequest lookup req oracle = .jsonError s ct fields) :
    ct = "application/json" ∧ (List.lookup "error" fields).isSome = true ∧
    ((s = 403 ∧ List.lookup "error" fields = some "Unauthorized") ∨
     (s = 400 ∧ List.lookup "error" fields = some "Missing 'url' query parameter") ∨
     (s = 400 ∧ List.lookup "error" fields = some "Invalid URL provided") ∨
     (s = 400 ∧ List.lookup "error" fields = some "Only https URLs are supported") ∨
     (s = 403 ∧ List.lookup "error" fields = some "Forbidden") ∨
     (s = 502 ∧ List.lookup "error" fields = some "Failed to fetch from origin")) := by
  unfold handleRequest at h
  rcases admission_enum lookup req with ha | ha | ⟨u, ha⟩ | ha | ha | ⟨u, b, o, ha⟩
  · rw [ha] at h
    dsimp only at h
    injection h with h1 h2 h3
    subst h1; subst h2; subst h3
    exact ⟨rfl, rfl, Or.inl ⟨rfl, rfl⟩⟩
  · rw [ha] at h
    dsimp only at h
    injection h with h1 h2 h3
    subst h1; subst h2; subst h3
    exact ⟨rfl, rfl, Or.inr (Or.inl ⟨rfl, rfl⟩)⟩
  · rw [ha] at h
    dsimp only at h
    injection h with h1 h2 h3
    subst h1; subst h2; subst h3
    exact ⟨rfl, rfl, Or.inr (Or.inr (Or.inl ⟨rfl, rfl⟩))⟩
  · rw [ha] at h
    dsimp only at h
    injection h with h1 h2 h3
    subst h1; subst h2; subst h3
    exact ⟨rfl, rfl, Or.inr (Or.inr (Or.inr (Or.inl ⟨rfl, rfl⟩)))⟩
  · rw [ha] at h
    dsimp only at h
    injection h with h1 h2 h3
    subst h1; subst h2; subst h3
    exact ⟨rfl, rfl, Or.inr (Or.inr (Or.inr (Or.inr (Or.inl ⟨rfl, rfl⟩))))⟩
  · rw [ha] at h
    dsimp only at h
    cases ho : oracle b o with
    | ok r =>
      rw [ho] at h
      dsimp only at h
      exact absurd h (by simp)
    | err m =>
      rw [ho] at h
      dsimp only at h
      injection h with h1 h2 h3
      subst h1; subst h2; subst h3
      exact ⟨rfl, rfl, Or.inr (Or.inr (Or.inr (Or.inr (Or.inr ⟨rfl, rfl⟩))))⟩

theorem errorResponses_wellFormed_witness :
    handleRequest .unavailable ⟨none, some "https://example.com", "GET", [], ""⟩
        fetchAlwaysOk =
      .jsonError 403 "application/json"
        [("error", "Unauthorized"), ("message", "Invalid or missing API key")] ∧
    ("application/json" : String) = "application/json" ∧
    (List.lookup "error"
      [(("error" : String), ("Unauthorized" : String)),
       ("message", "Invalid or missing API key")]).isSome = true :=
  ⟨by decide,
   (errorResponses_wellFormed .unavailable
      ⟨none, some "https://example.com", "GET", [], ""⟩ fetchAlwaysOk
      403 "application/json"
      [("error", "Unauthorized"), ("message", "Invalid or missing API key")]
      (by decide)).1,
   (errorResponses_wellFormed .unavailable
      ⟨none, some "https://example.com", "GET", [], ""⟩ fetchAlwaysOk
      403 "application/json"
      [("error", "Unauthorized"), ("message", "Invalid or missing API key")]
      (by decide)).2.1⟩

/-- C9: every request produces exactly one response: the handler's result
is a single relayed upstream response or a single JSON error response —
one of the two discriminators holds and the other fails, on every
control-flow path (every lookup state, request and fetch outcome). -/
theorem handler_exactly_one_response (lookup : KeyLookup) (req : InboundRequest)
    (oracle : BackendSpec → OutboundRequest → FetchOutcome) :
    (isRelayedResponse (handleRequest lookup req oracle) = true ∧
      isErrorResponse (handleRequest lookup req oracle) = false) ∨
    (isRelayedResponse (handleRequest lookup req oracle) = false ∧
      isErrorResponse (handleRequest lookup req oracle) = true) := by
  cases hr : handleRequest lookup req oracle with
  | relayed r => exact Or.inl ⟨rfl, rfl⟩
  | jsonError s ct f => exact Or.inr ⟨rfl, rfl⟩
